import Mathlib

/-!
Verification of the FlowDocs Figma plugin (TypeScript sources).

This file shallowly embeds the string-processing, parsing, error-classification
and orchestration logic of the plugin:

  * `src/src/main/main.ts`   (the later of the two revisions contained in the
    file: the batch-of-5 documentation loop, the provider-labelled error
    classifier, and the flow/edge-case pipeline; plus the regeneration handler,
    which only the earlier revision contains)
  * the canvas/card module (`parseDocSections` and friends)
  * `src/src/main/types.ts` (data shapes)

JavaScript strings are modelled as `List Char`; JavaScript regular-expression
operations used by the sources are modelled by dedicated scanners whose
semantics follow the specific pattern they model (leftmost match, greedy
quantifiers, `g`/`m` flags as the source uses them).  `JSON.parse` is modelled
by an executable JSON parser returning `Option Json`; a `none` result models a
thrown `SyntaxError` (which the sources always catch).
-/

/-- JS strings are modelled as lists of characters. -/
abbrev Str := List Char

/-- Literal conversion from a Lean string to the model type. -/
def lit (s : String) : Str := s.data

/-- The characters `{`, `}` and the backtick, kept out of literals. -/
def lbrace : Char := Char.ofNat 123

def rbrace : Char := Char.ofNat 125

def btick : Char := Char.ofNat 96

/-- JS whitespace (`\s`, `trim`): the ASCII whitespace characters.
(The sources only ever meet ASCII whitespace.) -/
def isJsWs (c : Char) : Bool :=
  [' ', '\t', '\n', '\r', '\x0b', '\x0c'].contains c

/-- `String.prototype.trim`. -/
def jsTrim (s : Str) : Str :=
  ((s.dropWhile isJsWs).reverse.dropWhile isJsWs).reverse

/-- `String.prototype.toLowerCase` (ASCII; the probed substrings are ASCII). -/
def jsLower (s : Str) : Str := s.map Char.toLower

/-- Index of the first occurrence of `needle` in `hay` (`String.indexOf`). -/
def findSubstrIdx (needle : Str) : Str → Option Nat
  | [] => if needle = [] then some 0 else none
  | c :: rest =>
    if needle.isPrefixOf (c :: rest) then some 0
    else (findSubstrIdx needle rest).map (· + 1)

/-- `String.prototype.includes`. -/
def containsSub (hay needle : Str) : Bool := (findSubstrIdx needle hay).isSome

/-- Fuelled worker for `String.prototype.split` with a non-empty separator. -/
def splitOnStrGo (delim : Str) : Nat → Str → List Str
  | 0, s => [s]
  | fuel + 1, s =>
    match findSubstrIdx delim s with
    | none => [s]
    | some i => s.take i :: splitOnStrGo delim fuel (s.drop (i + delim.length))

/-- `String.prototype.split(delim)` for a non-empty literal separator. -/
def splitOnStr (delim s : Str) : List Str := splitOnStrGo delim (s.length + 1) s

-- ---------------------------------------------------------------------------
-- JSON values and an executable model of `JSON.parse`
-- ---------------------------------------------------------------------------

/-- Parsed JSON values.  Numbers keep their lexeme: the sources only ever ask
`typeof x === 'number'` or truthiness of a field, never arithmetic. -/
inductive Json where
  | null : Json
  | bool (b : Bool) : Json
  | num (lexeme : Str) : Json
  | str (s : Str) : Json
  | arr (elems : List Json) : Json
  | obj (fields : List (Str × Json)) : Json

/-- JSON insignificant whitespace. -/
def isJsonWs (c : Char) : Bool :=
  [' ', '\t', '\n', '\r'].contains c

def skipJWs (cs : Str) : Str := cs.dropWhile isJsonWs

def isDigitC (c : Char) : Bool := '0' ≤ c && c ≤ '9'

def hexVal (c : Char) : Option Nat :=
  let n := c.toNat
  if 48 ≤ n ∧ n ≤ 57 then some (n - 48)
  else if 97 ≤ n ∧ n ≤ 102 then some (n - 87)
  else if 65 ≤ n ∧ n ≤ 70 then some (n - 55)
  else none

/-- The decoded form of a one-character JSON escape (after the backslash). -/
def escChar (c : Char) : Option Char :=
  if c = '"' ∨ c = '\\' ∨ c = '/' then some c
  else if c = 'n' then some '\n'
  else if c = 't' then some '\t'
  else if c = 'r' then some '\r'
  else if c = 'b' then some '\x08'
  else if c = 'f' then some '\x0c'
  else none

/-- Value of a four-digit hex escape. -/
def hex4 (h1 h2 h3 h4 : Char) : Option Nat :=
  [h1, h2, h3, h4].foldl
    (fun acc h => acc.bind (fun a => (hexVal h).map (fun v => a * 16 + v))) (some 0)

/-- Parse the body of a JSON string (after the opening quote), returning the
decoded characters and the input after the closing quote. -/
def parseJStr : Nat → Str → Option (Str × Str)
  | 0, _ => none
  | fuel + 1, cs =>
    match cs with
    | [] => none
    | '"' :: rest => some ([], rest)
    | '\\' :: esc =>
      match esc with
      | 'u' :: h1 :: h2 :: h3 :: h4 :: r =>
        match hex4 h1 h2 h3 h4 with
        | some n => (parseJStr fuel r).map (fun p => (Char.ofNat n :: p.1, p.2))
        | none => none
      | e :: r =>
        match escChar e with
        | some decoded => (parseJStr fuel r).map (fun p => (decoded :: p.1, p.2))
        | none => none
      | [] => none
    | c :: rest =>
      if c.toNat < 32 then none
      else (parseJStr fuel rest).map (fun p => (c :: p.1, p.2))

/-- Lex the exponent part of a JSON number (possibly absent). -/
def lexExp (acc : Str) (cs : Str) : Option (Str × Str) :=
  match cs with
  | 'e' :: r | 'E' :: r =>
    let (sgn, r1) :=
      match r with
      | '+' :: r2 => ((['+'] : Str), r2)
      | '-' :: r2 => ((['-'] : Str), r2)
      | _ => (([] : Str), r)
    let ds := r1.takeWhile isDigitC
    if ds = [] then none
    else some (acc ++ 'e' :: sgn ++ ds, r1.dropWhile isDigitC)
  | _ => some (acc, cs)

/-- Lex a JSON number: `-? int frac? exp?` (no leading zeros). -/
def lexNum (cs : Str) : Option (Str × Str) :=
  let (sign, cs1) :=
    match cs with
    | '-' :: r => ((['-'] : Str), r)
    | _ => (([] : Str), cs)
  let intPart := cs1.takeWhile isDigitC
  let cs2 := cs1.dropWhile isDigitC
  if intPart = [] then none
  else if intPart.length > 1 ∧ intPart.headD ' ' = '0' then none
  else
    match cs2 with
    | '.' :: r =>
      let ds := r.takeWhile isDigitC
      if ds = [] then none
      else lexExp (sign ++ intPart ++ '.' :: ds) (r.dropWhile isDigitC)
    | _ => lexExp (sign ++ intPart) cs2

mutual

/-- Parse one JSON value (leading whitespace allowed). -/
def parseVal : Nat → Str → Option (Json × Str)
  | 0, _ => none
  | fuel + 1, cs =>
    let cs1 := skipJWs cs
    match cs1 with
    | [] => none
    | c :: rest =>
      if c = '"' then (parseJStr fuel rest).map (fun p => (Json.str p.1, p.2))
      else if c = lbrace then
        let r1 := skipJWs rest
        match r1 with
        | d :: r2 =>
          if d = rbrace then some (Json.obj [], r2)
          else (parseMembers fuel r1).map (fun p => (Json.obj p.1, p.2))
        | [] => none
      else if c = '[' then
        let r1 := skipJWs rest
        match r1 with
        | ']' :: r2 => some (Json.arr [], r2)
        | _ => (parseElems fuel r1).map (fun p => (Json.arr p.1, p.2))
      else if (lit "true").isPrefixOf cs1 then some (Json.bool true, cs1.drop 4)
      else if (lit "false").isPrefixOf cs1 then some (Json.bool false, cs1.drop 5)
      else if (lit "null").isPrefixOf cs1 then some (Json.null, cs1.drop 4)
      else (lexNum cs1).map (fun p => (Json.num p.1, p.2))

/-- Parse the members of an object, positioned at the first key's quote. -/
def parseMembers : Nat → Str → Option (List (Str × Json) × Str)
  | 0, _ => none
  | fuel + 1, cs =>
    match cs with
    | '"' :: rest =>
      match parseJStr fuel rest with
      | none => none
      | some (key, r1) =>
        match skipJWs r1 with
        | ':' :: r2 =>
          match parseVal fuel r2 with
          | none => none
          | some (v, r3) =>
            match skipJWs r3 with
            | ',' :: r4 =>
              (parseMembers fuel (skipJWs r4)).map
                (fun p => ((key, v) :: p.1, p.2))
            | d :: r4 =>
              if d = rbrace then some ([(key, v)], r4) else none
            | [] => none
        | _ => none
    | _ => none

/-- Parse the elements of an array, positioned at the first element. -/
def parseElems : Nat → Str → Option (List Json × Str)
  | 0, _ => none
  | fuel + 1, cs =>
    match parseVal fuel cs with
    | none => none
    | some (v, r1) =>
      match skipJWs r1 with
      | ',' :: r2 => (parseElems fuel r2).map (fun p => (v :: p.1, p.2))
      | ']' :: r2 => some ([v], r2)
      | _ => none

end

/-- Model of `JSON.parse`: `none` models a thrown `SyntaxError`. -/
def jsonParse (s : Str) : Option Json :=
  match parseVal (s.length + 1) s with
  | some (v, rest) => if skipJWs rest = [] then some v else none
  | none => none

/-- Property access on a parse result: JS objects built by `JSON.parse` keep
the LAST of duplicate keys, so lookup takes the last binding. -/
def Json.getField (j : Json) (k : Str) : Option Json :=
  match j with
  | .obj fields => (fields.filter (fun p => p.1 = k)).getLast?.map Prod.snd
  | _ => none

/-- Is a JSON number lexeme the number zero? (all mantissa digits `0`). -/
def zeroLexeme (lx : Str) : Bool :=
  (lx.takeWhile (fun c => !(c == 'e' || c == 'E'))).all
    (fun c => !isDigitC c || c == '0')

/-- JS truthiness of a (possibly absent) field value. -/
def jsTruthy : Option Json → Bool
  | none => false
  | some .null => false
  | some (.bool b) => b
  | some (.num lx) => !zeroLexeme lx
  | some (.str s) => !s.isEmpty
  | some (.arr _) => true
  | some (.obj _) => true

/-- `typeof x === 'number'` on a (possibly absent) field value. -/
def isNumField : Option Json → Bool
  | some (.num _) => true
  | _ => false

-- ---------------------------------------------------------------------------
-- main.ts: greedy brace-match extraction and the visual-spec parser
-- ---------------------------------------------------------------------------

def idxOfChar (c : Char) (s : Str) : Option Nat := s.findIdx? (· == c)

def lastIdxOfChar (c : Char) (s : Str) : Option Nat :=
  (idxOfChar c s.reverse).map (fun i => s.length - 1 - i)

/-- The greedy brace-matching regex of `main.ts` (`\x7b[\s\S]*\x7d`): its
(leftmost, greedy) match runs from the first `\x7b` to the last `\x7d`; it
exists exactly when the first `\x7b` precedes the last `\x7d`. -/
def braceMatch (s : Str) : Option Str :=
  match idxOfChar lbrace s, lastIdxOfChar rbrace s with
  | some i, some j => if i < j then some ((s.drop i).take (j - i + 1)) else none
  | _, _ => none

/-- Case-insensitive literal drop (`pat` given in lower case). -/
def dropLitCI : Str → Str → Option Str
  | [], s => some s
  | _, [] => none
  | p :: ps, c :: cs => if c.toLower = p.toLower then dropLitCI ps cs else none

/-- Case-sensitive literal drop. -/
def dropLit : Str → Str → Option Str
  | [], s => some s
  | _, [] => none
  | p :: ps, c :: cs => if c = p then dropLit ps cs else none

/-- `raw.replace(/^（fence）(?:json)?\s*\/i, '')`: strip a leading code fence
(three backticks), an optional case-insensitive `json`, and whitespace. -/
def stripFenceStart (s : Str) : Str :=
  match s with
  | a :: b :: c :: rest =>
    if a = btick ∧ b = btick ∧ c = btick then
      let rest2 := match dropLitCI (lit "json") rest with | some r => r | none => rest
      rest2.dropWhile isJsWs
    else s
  | _ => s

/-- `raw.replace(/\s*（fence）$/i, '')`: strip a trailing code fence and the
whitespace before it (`$` without the `m` flag: end of string only). -/
def stripFenceEnd (s : Str) : Str :=
  match s.reverse with
  | a :: b :: c :: rest =>
    if a = btick ∧ b = btick ∧ c = btick then (rest.dropWhile isJsWs).reverse
    else s
  | _ => s

/-- `parseVisualScreenSpec` (main.ts): trim, strip code fences, greedy brace
match, `JSON.parse`, then accept only if `parsed.name` is truthy and
`typeof parsed.width === 'number'` and `typeof parsed.height === 'number'`.
The accepted value is returned as the raw parsed JSON (the TS cast performs
no further conversion). -/
def parseVisualScreenSpec (raw : Str) : Option Json :=
  let cleaned := stripFenceEnd (stripFenceStart (jsTrim raw))
  match braceMatch cleaned with
  | none => none
  | some m =>
    match jsonParse m with
    | none => none
    | some parsed =>
      if jsTruthy (parsed.getField (lit "name"))
          && isNumField (parsed.getField (lit "width"))
          && isNumField (parsed.getField (lit "height"))
      then some parsed else none

-- ---------------------------------------------------------------------------
-- main.ts: edge-case JSON extraction (runScanFlowWithEdgeCases, parsing part)
-- ---------------------------------------------------------------------------

def edgeDelim : Str := lit "---EDGE-CASES---"

/-- The unchecked TS cast `parsed as (missing_screens?: MissingScreenItem[])`
followed by `Array.isArray(parsed.missing_screens) ? ... : []`: elements are
taken verbatim, with no runtime validation of any field. -/
def readMissingScreens (j : Json) : List Json :=
  match j.getField (lit "missing_screens") with
  | some (Json.arr l) => l
  | _ => []

/-- The response-splitting part of `runScanFlowWithEdgeCases`: split on the
literal delimiter, trim the part before it into the flow text, and recover
missing screens from the part after it, degrading to `[]` on any failure
(the `catch` around `JSON.parse` swallows the error). -/
def extractEdgeCases (text : Str) : Str × List Json :=
  let edgeSplit := splitOnStr edgeDelim text
  let flowText := jsTrim (edgeSplit.headD [])
  let edgePart := jsTrim (edgeSplit.getD 1 [])
  let missingScreens :=
    if edgePart = [] then []
    else
      match braceMatch edgePart with
      | none => []
      | some m =>
        match jsonParse m with
        | none => []
        | some parsed => readMissingScreens parsed
  (flowText, missingScreens)

/-- Severity of a parsed missing-screen entry (`item.severity`). -/
def severityOf (item : Json) : Option Str :=
  match item.getField (lit "severity") with
  | some (Json.str s) => some s
  | _ => none

/-- `severityIcon[item.severity] ?? fallback` in `formatEdgeCaseMarkdown`:
the record lookup for the three known severities, white-circle fallback
otherwise. -/
def severityIcon (sev : Str) : Str :=
  if sev = lit "high" then lit "🔴"
  else if sev = lit "medium" then lit "🟡"
  else if sev = lit "low" then lit "🟢"
  else lit "⚪"

-- ---------------------------------------------------------------------------
-- Canvas module: parseDocSections (section headers, defaults, markdown strip)
-- ---------------------------------------------------------------------------

/-- `fullDoc.replace(/\r\n/g, '\n')`. -/
def normNl : Str → Str
  | [] => []
  | '\r' :: '\n' :: rest => '\n' :: normNl rest
  | c :: rest => c :: normNl rest

/-- `#+\s*` at the start of a header pattern: one or more hashes, then
whitespace. -/
def afterHashes (s : Str) : Option Str :=
  match s with
  | '#' :: rest => some ((rest.dropWhile (· == '#')).dropWhile isJsWs)
  | _ => none

/-- `\s*$`: only whitespace remains. -/
def wsEnd (s : Str) : Bool := (s.dropWhile isJsWs).isEmpty

/-- Pattern tail `\s*(&\s*w₁\s*w₂…)?\s*$` (ampersand-suffixed optional group,
as in `(&\s*Results)?`); regex backtracking makes a present-but-unfinished
group fail the whole pattern, as this does. -/
def optAmpSuffix (words : List Str) (s : Str) : Bool :=
  let s1 := s.dropWhile isJsWs
  match s1 with
  | '&' :: r =>
    (words.foldl (fun acc w => acc.bind (fun t => dropLitCI w (t.dropWhile isJsWs)))
        (some r)).elim false wsEnd
  | _ => s1.isEmpty

/-- Pattern tail `\s*(\(iOS\)|\(Android\))?\s*$`. -/
def optParenSuffix (alts : List Str) (s : Str) : Bool :=
  let s1 := s.dropWhile isJsWs
  match s1 with
  | '(' :: _ => alts.any (fun alt => (dropLitCI alt s1).elim false wsEnd)
  | _ => s1.isEmpty

/-- `/^#+\s*Purpose\s*$/i` on a trimmed line. -/
def hdrPurpose (t : Str) : Bool :=
  ((afterHashes t).bind (dropLitCI (lit "purpose"))).elim false wsEnd

/-- `/^#+\s*Use Cases\s*$/i` (literal single space). -/
def hdrUseCases (t : Str) : Bool :=
  ((afterHashes t).bind (dropLitCI (lit "use cases"))).elim false wsEnd

/-- `/^#+\s*Edge Cases\s*(&\s*Results)?\s*$/i`. -/
def hdrEdgeCases (t : Str) : Bool :=
  ((afterHashes t).bind (dropLitCI (lit "edge cases"))).elim false
    (optAmpSuffix [lit "results"])

/-- `/^#+\s*Platform\s*Constraints\s*(\(iOS\)|\(Android\))?\s*$/i`. -/
def hdrPlatform (t : Str) : Bool :=
  (((afterHashes t).bind (dropLitCI (lit "platform"))).map
      (fun r => r.dropWhile isJsWs)).bind (dropLitCI (lit "constraints"))
    |>.elim false (optParenSuffix [lit "(ios)", lit "(android)"])

/-- `/^#+\s*Data\s*Logic\s*(&\s*Edge\s*Cases)?\s*$/i`. -/
def hdrDataLogic (t : Str) : Bool :=
  (((afterHashes t).bind (dropLitCI (lit "data"))).map
      (fun r => r.dropWhile isJsWs)).bind (dropLitCI (lit "logic"))
    |>.elim false (optAmpSuffix [lit "edge", lit "cases"])

/-- `/^#+\s*Link to Component Library\s*$/i`. -/
def hdrLink (t : Str) : Bool :=
  ((afterHashes t).bind (dropLitCI (lit "link to component library"))).elim false wsEnd

/-- `/^#+\s*Animations\s*(&\s*Interactions)?\s*$/i`. -/
def hdrAnimations (t : Str) : Bool :=
  ((afterHashes t).bind (dropLitCI (lit "animations"))).elim false
    (optAmpSuffix [lit "interactions"])

/-- `/^#+\s*Attachments\s*$/i`. -/
def hdrAttachments (t : Str) : Bool :=
  ((afterHashes t).bind (dropLitCI (lit "attachments"))).elim false wsEnd

def kPurpose : Str := lit "Purpose"
def kUseCases : Str := lit "Use Cases"
def kEdgeCases : Str := lit "Edge Cases & Results"
def kPlatform : Str := lit "Platform Constraints"
def kDataLogic : Str := lit "Data Logic & Edge Cases"
def kLink : Str := lit "Link to Component Library"
def kAnimations : Str := lit "Animations & Interactions"
def kAttachments : Str := lit "Attachments"

/-- The eight section keys, in `SECTION_HEADERS` order (which coincides with
the key order of the pre-registered record). -/
def docSectionKeys : List Str :=
  [kPurpose, kUseCases, kEdgeCases, kPlatform, kDataLogic, kLink, kAnimations, kAttachments]

/-- `SECTION_HEADERS.find(h => h.pattern.test(trimmed))` — first matching
pattern wins. -/
def findHeader (t : Str) : Option Str :=
  if hdrPurpose t then some kPurpose
  else if hdrUseCases t then some kUseCases
  else if hdrEdgeCases t then some kEdgeCases
  else if hdrPlatform t then some kPlatform
  else if hdrDataLogic t then some kDataLogic
  else if hdrLink t then some kLink
  else if hdrAnimations t then some kAnimations
  else if hdrAttachments t then some kAttachments
  else none

/-- The pre-registered section record (insertion order as in the source). -/
def docDefaults : List (Str × Str) :=
  [(kPurpose, []), (kUseCases, []), (kEdgeCases, []), (kPlatform, []), (kDataLogic, []),
   (kLink, lit "_____________________ (add link here)"),
   (kAnimations, []),
   (kAttachments,
    lit "Design specs: _____________________ (add link)\n\nAssets: _____________________ (add link)\n\nOther: _____________________ (add link)")]

/-- `sections[key] = content` on a JS record: overwrite in place, append if
new (never needed here, but faithful). -/
def setKey (k v : Str) : List (Str × Str) → List (Str × Str)
  | [] => [(k, v)]
  | (k', v') :: rest => if k' = k then (k, v) :: rest else (k', v') :: setKey k v rest

def getKey (m : List (Str × Str)) (k : Str) : Option Str :=
  (m.find? (fun p => p.1 = k)).map (·.2)

/-- `content.replace(/^#+\s*/gm, '')`: at string start or right after a
newline of the ORIGINAL string, remove a run of hashes and the (greedy,
possibly newline-crossing) whitespace after it; scanning resumes after the
removed region. -/
def replHashLineStartGo : Nat → Bool → Str → Str
  | 0, _, s => s
  | _ + 1, _, [] => []
  | fuel + 1, atStart, c :: rest =>
    if atStart ∧ c = '#' then
      let afterHash := (c :: rest).dropWhile (· == '#')
      let afterWs := afterHash.dropWhile isJsWs
      let wsRun := afterHash.take (afterHash.length - afterWs.length)
      replHashLineStartGo fuel (wsRun.getLast? = some '\n') afterWs
    else
      c :: replHashLineStartGo fuel (c = '\n') rest

def replHashLineStart (s : Str) : Str := replHashLineStartGo (s.length + 1) true s

/-- Length of the leftmost-greedy match of `/\s*#+\s*$/m` anchored at the
current position, if any: maximal whitespace, then a hash run, then the
longest whitespace prefix after which the position is end-of-string or a
newline (the `$` of the `m` flag). -/
def trailHashMatchLen (s : Str) : Option Nat :=
  let w1 := s.takeWhile isJsWs
  let afterW1 := s.dropWhile isJsWs
  match afterW1 with
  | '#' :: _ =>
    let hs := afterW1.takeWhile (· == '#')
    let afterH := afterW1.dropWhile (· == '#')
    let w2 := afterH.takeWhile isJsWs
    let afterW2 := afterH.dropWhile isJsWs
    if afterW2.isEmpty then some (w1.length + hs.length + w2.length)
    else
      match lastIdxOfChar '\n' w2 with
      | some k => some (w1.length + hs.length + k)
      | none => none
  | _ => none

/-- `content.replace(/\s*#+\s*$/gm, '')`. -/
def replTrailHashGo : Nat → Str → Str
  | 0, s => s
  | _ + 1, [] => []
  | fuel + 1, c :: rest =>
    match trailHashMatchLen (c :: rest) with
    | some n => replTrailHashGo fuel ((c :: rest).drop n)
    | none => c :: replTrailHashGo fuel rest

def replTrailHash (s : Str) : Str := replTrailHashGo (s.length + 1) s

/-- `v.replace(/\n#+\s*/g, '\n')`. -/
def replNlHashGo : Nat → Str → Str
  | 0, s => s
  | _ + 1, [] => []
  | fuel + 1, '\n' :: '#' :: rest =>
    '\n' :: replNlHashGo fuel ((rest.dropWhile (· == '#')).dropWhile isJsWs)
  | fuel + 1, c :: rest => c :: replNlHashGo fuel rest

def replNlHash (s : Str) : Str := replNlHashGo (s.length + 1) s

/-- The body of `flush`: join the collected lines, trim, strip line-leading
and line-trailing hash runs, trim again. -/
def flushContent (currentLines : List Str) : Str :=
  jsTrim (replTrailHash (replHashLineStart (jsTrim (List.intercalate ['\n'] currentLines))))

/-- The per-key cleanup loop after parsing:
`v.replace(/^#+\s*/gm, '').replace(/\n#+\s*/g, '\n').trim()`. -/
def finalStrip (v : Str) : Str := jsTrim (replNlHash (replHashLineStart v))

structure DocParseState where
  sections : List (Str × Str)
  currentKey : Option Str
  currentLines : List Str

/-- `flush()` over the fold state: section content is stored only when
non-empty, so an empty body leaves the pre-registered default untouched. -/
def flushState (st : DocParseState) : List (Str × Str) :=
  match st.currentKey with
  | none => st.sections
  | some k =>
    let content := flushContent st.currentLines
    if content = [] then st.sections else setKey k content st.sections

/-- One iteration of the `for (const line of lines)` loop. -/
def docLineStep (st : DocParseState) (line : Str) : DocParseState :=
  match findHeader (jsTrim line) with
  | some k => { sections := flushState st, currentKey := some k, currentLines := [] }
  | none =>
    match st.currentKey with
    | some _ => { st with currentLines := st.currentLines ++ [line] }
    | none => st

/-- `parseDocSections` up to (but excluding) the final per-key cleanup loop. -/
def parseDocSectionsPre (fullDoc : Str) : List (Str × Str) :=
  flushState (((normNl fullDoc).splitOn '\n').foldl docLineStep ⟨docDefaults, none, []⟩)

/-- `parseDocSections` (canvas module): defaults, header scan, flush, final
markdown cleanup of every key. -/
def parseDocSections (fullDoc : Str) : List (Str × Str) :=
  (parseDocSectionsPre fullDoc).map (fun p => (p.1, finalStrip p.2))

-- ---------------------------------------------------------------------------
-- main.ts: error classifier (getUserFriendlyError, later revision)
-- ---------------------------------------------------------------------------

inductive AIProvider where
  | anthropic : AIProvider
  | openai : AIProvider
  | google : AIProvider
deriving DecidableEq

/-- `PROVIDER_LABELS`. -/
def providerLabel : AIProvider → Str
  | .anthropic => lit "Anthropic"
  | .openai => lit "OpenAI"
  | .google => lit "Google"

/-- A JS throwable as the classifier sees it: an `Error` (with its message
and whether it is a `TypeError`), a plain object (string-typed fields are
`some`, absent or non-string fields are `none`), or anything else via
`String(error)`. -/
inductive JsError where
  | err (message : Str) (isTypeError : Bool) : JsError
  | obj (message errField reason statusText : Option Str) (status : Option Int) : JsError
  | prim (asString : Str) : JsError

/-- `typeof f === 'string' && f` — an empty string is falsy and is skipped. -/
def pickStr (o : Option Str) : Option Str :=
  match o with
  | some s => if s = [] then none else some s
  | none => none

/-- The message-extraction preamble of `getUserFriendlyError`. -/
def extractMessage : JsError → Str
  | .err m _ => if m = [] then lit "Unknown error" else m
  | .obj m e r st status =>
    match pickStr m with
    | some s => s
    | none =>
      match pickStr e with
      | some s => s
      | none =>
        match pickStr r with
        | some s => s
        | none =>
          match pickStr st with
          | some s => s
          | none =>
            match status with
            | some n => lit "Request failed with status " ++ lit (toString n)
            | none => lit "Something went wrong. Please try again."
  | .prim s => if s = [] then lit "Unknown error" else s

def isTypeErr : JsError → Bool
  | .err _ te => te
  | _ => false

/-- `message.match(/API error (\d+)/)`: the digits after the leftmost
occurrence of `API error ` that is followed by at least one digit. -/
def findApiErrCode : Str → Option Str
  | [] => none
  | c :: rest =>
    match dropLit (lit "API error ") (c :: rest) with
    | some r =>
      let ds := r.takeWhile isDigitC
      if ds = [] then findApiErrCode rest else some ds
    | none => findApiErrCode rest

/-- The tail of the classifier chain, reached when no status-code branch
fires (timeout, fetch/TypeError, CORS/network, selection, JSON/parse,
then the generic `Error:` message with a 300-character cap). -/
def classifyTail (message : Str) (isTE : Bool) : Str :=
  let lower := jsLower message
  if containsSub lower (lit "timeout") || containsSub lower (lit "timed out") then
    lit "Request timed out. Please check your connection and try again."
  else if isTE && (containsSub message (lit "fetch") || containsSub message (lit "Failed to fetch")) then
    lit "Connection error. Please check your internet connection."
  else if containsSub lower (lit "cors") || containsSub lower (lit "failed to fetch")
      || containsSub lower (lit "network") then
    lit "Connection error. Please check your internet connection."
  else if containsSub lower (lit "no frames selected") || containsSub lower (lit "selection") then
    lit "Please select at least one frame to scan."
  else if containsSub message (lit "JSON") || containsSub lower (lit "parse") then
    lit "Error parsing AI response. Please try again."
  else if message.length > 300 then lit "Error: " ++ message.take 297 ++ lit "..."
  else lit "Error: " ++ message

/-- The `API error NNN` fallback branch: recognized codes map to the same
messages as the direct-substring branches; unrecognized codes fall through. -/
def classifyApiCode (label : Str) (message : Str) (isTE : Bool) : Str :=
  match (if containsSub message (lit "API error") then findApiErrCode message else none) with
  | some code =>
    if code = lit "401" then
      label ++ lit ": Invalid API key. Please check your key and try again."
    else if code = lit "402" then
      lit "Insufficient API credits. Please add credits to your " ++ label ++ lit " account."
    else if code = lit "429" then
      lit "Rate limit reached. Please wait a moment and try again."
    else if code = lit "400" then
      lit "Request error. Please check your settings."
    else if code = lit "500" ∨ code = lit "502" ∨ code = lit "503" ∨ code = lit "529" then
      label ++ lit " is experiencing issues. Please try again in a few minutes."
    else classifyTail message isTE
  | none => classifyTail message isTE

/-- The status/substring classification chain of `getUserFriendlyError`
(later revision), applied to the extracted message. -/
def classifyMessage (message0 : Str) (isTE : Bool) (provider : Option AIProvider) : Str :=
  let label := match provider with | some p => providerLabel p | none => lit "API"
  let message :=
    if message0 = lit "[object Object]" then lit "Something went wrong. Please try again."
    else message0
  let lower := jsLower message
  if containsSub message (lit "401") || containsSub lower (lit "invalid api key")
      || containsSub lower (lit "incorrect api key") then
    label ++ lit ": Invalid API key. Please check your key and try again."
  else if containsSub message (lit "429") || containsSub lower (lit "rate limit") then
    lit "Rate limit reached. Please wait a moment and try again."
  else if containsSub message (lit "402") || containsSub lower (lit "insufficient_quota")
      || containsSub lower (lit "credit") || containsSub lower (lit "quota") then
    lit "Insufficient API credits. Please add credits to your " ++ label ++ lit " account."
  else if containsSub message (lit "400") then
    lit "Request error. Please check your settings."
  else if containsSub message (lit "500") || containsSub message (lit "502")
      || containsSub message (lit "503") || containsSub message (lit "529")
      || containsSub lower (lit "overloaded") then
    label ++ lit " is experiencing issues. Please try again in a few minutes."
  else classifyApiCode label message isTE

/-- `getUserFriendlyError(error, provider)` (later revision of main.ts). -/
def getUserFriendlyError (e : JsError) (provider : Option AIProvider) : Str :=
  classifyMessage (extractMessage e) (isTypeErr e) provider

-- ---------------------------------------------------------------------------
-- main.ts: orchestrator handlers (session scope, preconditions, effects)
-- ---------------------------------------------------------------------------

/-- The ambient module state `apiKey` / `projectContext` / `currentProvider`. -/
structure Session where
  apiKey : Str
  projectContext : Str
  currentProvider : AIProvider
deriving DecidableEq

/-- Observable actions of a handler: messages posted to the UI and vendor
HTTP requests.  (Console logging is not modelled.) -/
inductive Effect where
  | uiError (msg : Str) : Effect
  | uiNote (msg : Str) : Effect
  | netRequest : Effect
deriving DecidableEq

def isNet : Effect → Bool
  | .netRequest => true
  | _ => false

def isUiError : Effect → Bool
  | .uiError _ => true
  | _ => false

/-- `a || b` on JS strings: an empty string is falsy. -/
def jsOr (a b : Str) : Str := if a = [] then b else a

/-- The body of a handler runs under the overridden session and emits some
effects, then either returns or throws; partial effects before a throw are
kept (`sendProgress` runs before the failing `await`). -/
abbrev HandlerBody := Session → List Effect × Option JsError

/-- `handleScanScreens` (later revision), reduced to its session/effect
skeleton: validate selection then key (each aborting with one UI error and
touching nothing else), then save the session, override it, run the body
under `try`/`catch (sendError)`/`finally (restore)`. -/
def handleScanScreensM (s : Session) (msgApiKey : Str) (msgProvider : AIProvider)
    (msgProjectContext : Option Str) (selCount : Nat) (body : HandlerBody) :
    Session × List Effect :=
  let key := jsTrim (jsOr msgApiKey s.apiKey)
  let ctx := jsTrim (msgProjectContext.getD s.projectContext)
  if selCount = 0 then (s, [.uiError (lit "Please select at least one frame.")])
  else if key = [] then (s, [.uiError (lit "Please set and validate your API key first.")])
  else
    let prev := s
    let s1 : Session := ⟨key, ctx, msgProvider⟩
    let (es, thrown) := body s1
    let effects :=
      match thrown with
      | some e => es ++ [Effect.uiError (getUserFriendlyError e (some s1.currentProvider))]
      | none => es
    (⟨prev.apiKey, prev.projectContext, prev.currentProvider⟩, effects)

/-- `handleScanFlow` (later revision): same skeleton as `handleScanScreens`. -/
def handleScanFlowM (s : Session) (msgApiKey : Str) (msgProvider : AIProvider)
    (msgProjectContext : Option Str) (selCount : Nat) (body : HandlerBody) :
    Session × List Effect :=
  let key := jsTrim (jsOr msgApiKey s.apiKey)
  let ctx := jsTrim (msgProjectContext.getD s.projectContext)
  if selCount = 0 then (s, [.uiError (lit "Please select at least one frame.")])
  else if key = [] then (s, [.uiError (lit "Please set and validate your API key first.")])
  else
    let prev := s
    let s1 : Session := ⟨key, ctx, msgProvider⟩
    let (es, thrown) := body s1
    let effects :=
      match thrown with
      | some e => es ++ [Effect.uiError (getUserFriendlyError e (some s1.currentProvider))]
      | none => es
    (⟨prev.apiKey, prev.projectContext, prev.currentProvider⟩, effects)

/-- `handleGenerateMissingScreens` (earlier revision, the only one that has
it): `if (!key || missingScreens.length === 0) return;` — a bare return,
with no UI message — then the same save/override/try/catch/finally shape. -/
def handleGenerateMissingScreensM (s : Session) (missingScreens : List Json)
    (msgApiKey : Str) (msgProvider : AIProvider) (msgProjectContext : Option Str)
    (body : HandlerBody) : Session × List Effect :=
  let key := jsTrim (jsOr msgApiKey s.apiKey)
  let ctx := jsTrim (msgProjectContext.getD s.projectContext)
  if key.isEmpty || missingScreens.isEmpty then (s, [])
  else
    let prev := s
    let s1 : Session := ⟨key, ctx, msgProvider⟩
    let (es, thrown) := body s1
    let effects :=
      match thrown with
      | some e => es ++ [Effect.uiError (getUserFriendlyError e (some s1.currentProvider))]
      | none => es
    (⟨prev.apiKey, prev.projectContext, prev.currentProvider⟩, effects)

-- ---------------------------------------------------------------------------
-- main.ts: regeneration loop (retry-once-then-skip per item)
-- ---------------------------------------------------------------------------

/-- Steps of the per-item generation loop that matter to its contract:
vendor calls, built screens, and the skip notification. -/
inductive GenEvent where
  | request : GenEvent
  | built (spec : Json) : GenEvent
  | skipError : GenEvent

/-- The `for (const item …)` loop of `handleGenerateMissingScreens`, driven
by the vendor responses each item would receive on its first call and on
its (single possible) retry: parse the first response; on failure call the
vendor once more; on a second failure send a skip error and `continue`. -/
def genLoop : List (Str × Str) → List GenEvent
  | [] => []
  | (resp1, resp2) :: rest =>
    match parseVisualScreenSpec resp1 with
    | some spec => GenEvent.request :: GenEvent.built spec :: genLoop rest
    | none =>
      match parseVisualScreenSpec resp2 with
      | some spec =>
        GenEvent.request :: GenEvent.request :: GenEvent.built spec :: genLoop rest
      | none =>
        GenEvent.request :: GenEvent.request :: GenEvent.skipError :: genLoop rest

/-- What one item contributes to the loop (stated for comparison). -/
def genItemTrace (resp1 resp2 : Str) : List GenEvent :=
  match parseVisualScreenSpec resp1 with
  | some spec => [GenEvent.request, GenEvent.built spec]
  | none =>
    match parseVisualScreenSpec resp2 with
    | some spec => [GenEvent.request, GenEvent.request, GenEvent.built spec]
    | none => [GenEvent.request, GenEvent.request, GenEvent.skipError]

def isReq : GenEvent → Bool
  | .request => true
  | _ => false

def isSkip : GenEvent → Bool
  | .skipError => true
  | _ => false

def builtSpecs (evs : List GenEvent) : List Json :=
  evs.filterMap (fun e => match e with | .built spec => some spec | _ => none)

-- ---------------------------------------------------------------------------
-- main.ts: batched documentation loop (later revision of handleScanScreens)
-- ---------------------------------------------------------------------------

def BATCH_SIZE : Nat := 5

def BATCH_DELAY_MS : Nat := 2000

/-- One step of the batched schedule: a batch of screens issued together and
awaited together (`Promise.all`), or the fixed inter-batch `setTimeout`. -/
inductive ScanEvent (α : Type) where
  | batchRequest (batch : List α) : ScanEvent α
  | pause (ms : Nat) : ScanEvent α
deriving DecidableEq

/-- The `for (let i = 0; i < total; i += BATCH_SIZE)` loop: slice a batch,
await all its results, append them to `docs` in order, and pause only when
`i + BATCH_SIZE < total`.  The fuel is the list length, enough for the
stride-5 walk. -/
def scanBatchGo {α β : Type} (f : α → β) : Nat → List α → List (ScanEvent α) × List β
  | _, [] => ([], [])
  | 0, _ => ([], [])
  | fuel + 1, s =>
    let batch := s.take BATCH_SIZE
    let batchResults := batch.map f
    let rest := s.drop BATCH_SIZE
    let (evs, docs) := scanBatchGo f fuel rest
    (ScanEvent.batchRequest batch ::
       (if rest.isEmpty then evs else ScanEvent.pause BATCH_DELAY_MS :: evs),
     batchResults ++ docs)

/-- The batched documentation schedule and the collected docs, in order. -/
def scanBatchLoop {α β : Type} (f : α → β) (frameDataList : List α) :
    List (ScanEvent α) × List β :=
  scanBatchGo f frameDataList.length frameDataList

-- ---------------------------------------------------------------------------
-- Claim theorems
-- ---------------------------------------------------------------------------

/-- C1: for the per-screen documentation action with 7 selected screens and
batch size 5, the orchestrator issues exactly 2 request batches of sizes 5
and 2 (each `batchRequest` is one fully awaited `Promise.all`, so batch N's
results are collected before batch N+1 starts), inserts exactly one fixed
2000 ms pause between them and none after the final batch, and produces the
7 documentation results in the original selection order. -/
theorem C1_documentation_batches_of_seven {α β : Type} (f : α → β)
    (a1 a2 a3 a4 a5 a6 a7 : α) :
    scanBatchLoop f [a1, a2, a3, a4, a5, a6, a7] =
      ([ScanEvent.batchRequest [a1, a2, a3, a4, a5],
        ScanEvent.pause 2000,
        ScanEvent.batchRequest [a6, a7]],
       [f a1, f a2, f a3, f a4, f a5, f a6, f a7]) := rfl

/-- Unfolding of `extractEdgeCases` (the `let`s made explicit). -/
theorem extractEdgeCases_eq (text : Str) :
    extractEdgeCases text =
      (jsTrim ((splitOnStr edgeDelim text).headD []),
       if jsTrim ((splitOnStr edgeDelim text).getD 1 []) = [] then []
       else
         match braceMatch (jsTrim ((splitOnStr edgeDelim text).getD 1 [])) with
         | none => []
         | some m =>
           match jsonParse m with
           | none => []
           | some parsed => readMissingScreens parsed) := rfl

/-- C3: the edge-case extraction is a total function (never throws): the flow
text is always the text before the first delimiter occurrence, trimmed (the
whole text when the delimiter is absent); and the missing-screens list is
empty when the delimiter is absent, when no brace-matched JSON object is
found after it, or when that substring is malformed JSON. -/
theorem C3_edge_case_extraction_degrades (text : Str) :
    (∀ i, findSubstrIdx edgeDelim text = some i →
       (extractEdgeCases text).1 = jsTrim (text.take i))
  ∧ (findSubstrIdx edgeDelim text = none →
       extractEdgeCases text = (jsTrim text, []))
  ∧ (braceMatch (jsTrim ((splitOnStr edgeDelim text).getD 1 [])) = none →
       (extractEdgeCases text).2 = [])
  ∧ (∀ m, braceMatch (jsTrim ((splitOnStr edgeDelim text).getD 1 [])) = some m →
       jsonParse m = none → (extractEdgeCases text).2 = []) := by
  refine ⟨?_, ?_, ?_, ?_⟩
  · intro i h
    have hs : splitOnStr edgeDelim text =
        text.take i :: splitOnStrGo edgeDelim text.length (text.drop (i + edgeDelim.length)) := by
      simp only [splitOnStr, splitOnStrGo, h]
    rw [extractEdgeCases_eq, hs]
    rfl
  · intro h
    have hs : splitOnStr edgeDelim text = [text] := by
      simp only [splitOnStr, splitOnStrGo, h]
    rw [extractEdgeCases_eq, hs]
    rfl
  · intro h
    rw [extractEdgeCases_eq]
    by_cases he : jsTrim ((splitOnStr edgeDelim text).getD 1 []) = []
    · rw [if_pos he]
    · rw [if_neg he, h]
  · intro m hm hp
    rw [extractEdgeCases_eq]
    by_cases he : jsTrim ((splitOnStr edgeDelim text).getD 1 []) = []
    · rw [if_pos he]
    · rw [if_neg he, hm]
      show (match jsonParse m with
            | none => []
            | some parsed => readMissingScreens parsed) = []
      rw [hp]

/-- C3 witness: a response without the delimiter degrades to the empty
missing-screens list with the whole trimmed text as flow text. -/
theorem C3_witness :
    findSubstrIdx edgeDelim (lit "  just flow text ") = none
  ∧ extractEdgeCases (lit "  just flow text ") = (lit "just flow text", []) :=
  ⟨by decide, ((C3_edge_case_extraction_degrades (lit "  just flow text ")).2.1
      (by decide)).trans rfl⟩

/-- C9 counterexample: the validation accepts any TRUTHY `name`, not only a
non-empty string.  For the input object `name: 5, width: 375, height: 812`
the `name` field is wrongly typed (a number), yet the parser returns the
parsed object instead of the null the claim requires for wrongly-typed
fields. -/
theorem C9_counterexample :
    parseVisualScreenSpec (lit "\x7b\"name\":5,\"width\":375,\"height\":812\x7d") =
      some (Json.obj [(lit "name", Json.num (lit "5")),
                      (lit "width", Json.num (lit "375")),
                      (lit "height", Json.num (lit "812"))]) := rfl

/-- C9 (amended): the visual-spec parser trims, strips code fences, applies
the greedy brace match and `JSON.parse`, and returns the parsed object
exactly when its `name` field is truthy (a non-empty string, or any other
truthy value such as a non-zero number) and `width` and `height` are
numbers; in every other case (no brace match, malformed JSON, missing or
falsy/wrongly-typed-to-non-number fields) it returns null, and it never
throws (it is a total function). -/
theorem C9_visual_spec_acceptance (raw : Str) :
    (braceMatch (stripFenceEnd (stripFenceStart (jsTrim raw))) = none →
       parseVisualScreenSpec raw = none)
  ∧ (∀ m, braceMatch (stripFenceEnd (stripFenceStart (jsTrim raw))) = some m →
       jsonParse m = none → parseVisualScreenSpec raw = none)
  ∧ (∀ m parsed, braceMatch (stripFenceEnd (stripFenceStart (jsTrim raw))) = some m →
       jsonParse m = some parsed →
       parseVisualScreenSpec raw =
         (if jsTruthy (parsed.getField (lit "name"))
             && isNumField (parsed.getField (lit "width"))
             && isNumField (parsed.getField (lit "height"))
          then some parsed else none)) := by
  refine ⟨?_, ?_, ?_⟩
  · intro h
    simp only [parseVisualScreenSpec, h]
  · intro m hm hp
    simp only [parseVisualScreenSpec, hm]
    show (match jsonParse m with
          | none => none
          | some parsed =>
            if jsTruthy (parsed.getField (lit "name"))
                && isNumField (parsed.getField (lit "width"))
                && isNumField (parsed.getField (lit "height"))
            then some parsed else none) = none
    rw [hp]
  · intro m parsed hm hp
    simp only [parseVisualScreenSpec, hm]
    show (match jsonParse m with
          | none => none
          | some parsed =>
            if jsTruthy (parsed.getField (lit "name"))
                && isNumField (parsed.getField (lit "width"))
                && isNumField (parsed.getField (lit "height"))
            then some parsed else none) = _
    rw [hp]

/-- C9 witness: a fenced response with a non-empty string name and numeric
width/height is accepted; the hypotheses of the acceptance theorem are
discharged at this concrete input. -/
theorem C9_witness :
    parseVisualScreenSpec (lit "```json\n\x7b\"name\":\"A\",\"width\":375,\"height\":812\x7d\n```") =
      some (Json.obj [(lit "name", Json.str (lit "A")),
                      (lit "width", Json.num (lit "375")),
                      (lit "height", Json.num (lit "812"))]) :=
  ((C9_visual_spec_acceptance
      (lit "```json\n\x7b\"name\":\"A\",\"width\":375,\"height\":812\x7d\n```")).2.2
    (lit "\x7b\"name\":\"A\",\"width\":375,\"height\":812\x7d")
    (Json.obj [(lit "name", Json.str (lit "A")),
               (lit "width", Json.num (lit "375")),
               (lit "height", Json.num (lit "812"))])
    rfl rfl).trans rfl

/-- C2 counterexample: a vendor response whose `missing_screens` entry
carries the unrecognized severity `critical` is NOT a parse failure: the
entry is accepted into the result list with its severity as-is, and the
markdown formatter renders that severity with the fallback white-circle
icon — precisely the silent coercion the claim rules out. -/
theorem C2_counterexample :
    ((extractEdgeCases (lit "Flow text---EDGE-CASES---\x7b\"missing_screens\":[\x7b\"name\":\"Error screen\",\"severity\":\"critical\"\x7d]\x7d")).2.map
        severityOf) = [some (lit "critical")]
  ∧ severityIcon (lit "critical") = lit "⚪" := ⟨rfl, rfl⟩

/-- C2 (amended): parsing performs no validation of `severity` (or of any
other field): whenever the brace-matched substring after the delimiter
parses as JSON, the elements of its `missing_screens` array are accepted
verbatim, whatever their severity; the markdown formatter maps the three
known severities to their icons and every other severity to the fallback
white-circle icon rather than rejecting it. -/
theorem C2_severity_not_validated :
    (∀ (j : Json) (l : List Json),
       j.getField (lit "missing_screens") = some (Json.arr l) →
       readMissingScreens j = l)
  ∧ (∀ text m parsed,
       braceMatch (jsTrim ((splitOnStr edgeDelim text).getD 1 [])) = some m →
       jsonParse m = some parsed →
       (extractEdgeCases text).2 = readMissingScreens parsed)
  ∧ (∀ sev : Str, sev ≠ lit "high" → sev ≠ lit "medium" → sev ≠ lit "low" →
       severityIcon sev = lit "⚪") := by
  refine ⟨?_, ?_, ?_⟩
  · intro j l h
    simp only [readMissingScreens, h]
  · intro text m parsed hm hp
    have he : jsTrim ((splitOnStr edgeDelim text).getD 1 []) ≠ [] := by
      intro he
      rw [he] at hm
      simp [braceMatch, idxOfChar] at hm
    rw [extractEdgeCases_eq, if_neg he, hm]
    show (match jsonParse m with
          | none => []
          | some parsed => readMissingScreens parsed) = _
    rw [hp]
  · intro sev h1 h2 h3
    simp only [severityIcon, if_neg h1, if_neg h2, if_neg h3]

/-- C2 witness: the amended theorem applied at concrete inputs — the raw
`missing_screens` array of the counterexample response is passed through
verbatim, and the unrecognized severity gets the fallback icon. -/
theorem C2_witness :
    readMissingScreens
        (Json.obj [(lit "missing_screens", Json.arr [Json.null, Json.bool true])]) =
      [Json.null, Json.bool true]
  ∧ severityIcon (lit "critical") = lit "⚪" :=
  ⟨(C2_severity_not_validated).1
      (Json.obj [(lit "missing_screens", Json.arr [Json.null, Json.bool true])])
      [Json.null, Json.bool true] rfl,
   (C2_severity_not_validated).2.2 (lit "critical")
      (by decide) (by decide) (by decide)⟩

/-- C6 counterexample: with no API key present (ambient and message key both
empty) and a non-empty missing-screens list, the regeneration handler
returns silently — it issues no network request, but it also emits NO
user-facing error notification, contradicting the claim that every action
emits an immediate error in this situation.  (The body supplied here would
have issued a network request had it run.) -/
theorem C6_counterexample :
    handleGenerateMissingScreensM ⟨[], [], AIProvider.anthropic⟩ [Json.null] []
        AIProvider.anthropic none (fun _ => ([Effect.netRequest], none)) =
      (⟨[], [], AIProvider.anthropic⟩, [])
  ∧ ((handleGenerateMissingScreensM ⟨[], [], AIProvider.anthropic⟩ [Json.null] []
        AIProvider.anthropic none (fun _ => ([Effect.netRequest], none))).2.any isUiError)
      = false := ⟨rfl, rfl⟩

/-- C6 (amended): for the documentation and flow-analysis actions, a missing
selection or a missing API key aborts with exactly one immediate user-facing
error message and no network request (the body — which contains every
network call — never runs); the regeneration action, when the key is absent
(or there are no missing-screen items), likewise issues no network request
but returns silently, with no notification at all. -/
theorem C6_precondition_failures :
    (∀ (s : Session) msgKey msgProv msgCtx (body : HandlerBody),
       handleScanScreensM s msgKey msgProv msgCtx 0 body =
         (s, [Effect.uiError (lit "Please select at least one frame.")]))
  ∧ (∀ (s : Session) msgKey msgProv msgCtx selCount (body : HandlerBody),
       jsTrim (jsOr msgKey s.apiKey) = [] → selCount ≠ 0 →
       handleScanScreensM s msgKey msgProv msgCtx selCount body =
         (s, [Effect.uiError (lit "Please set and validate your API key first.")]))
  ∧ (∀ (s : Session) msgKey msgProv msgCtx (body : HandlerBody),
       handleScanFlowM s msgKey msgProv msgCtx 0 body =
         (s, [Effect.uiError (lit "Please select at least one frame.")]))
  ∧ (∀ (s : Session) msgKey msgProv msgCtx selCount (body : HandlerBody),
       jsTrim (jsOr msgKey s.apiKey) = [] → selCount ≠ 0 →
       handleScanFlowM s msgKey msgProv msgCtx selCount body =
         (s, [Effect.uiError (lit "Please set and validate your API key first.")]))
  ∧ (∀ (s : Session) missing msgKey msgProv msgCtx (body : HandlerBody),
       jsTrim (jsOr msgKey s.apiKey) = [] →
       handleGenerateMissingScreensM s missing msgKey msgProv msgCtx body = (s, [])) := by
  refine ⟨?_, ?_, ?_, ?_, ?_⟩
  · intro s msgKey msgProv msgCtx body
    simp [handleScanScreensM]
  · intro s msgKey msgProv msgCtx selCount body hk hs
    simp [handleScanScreensM, hs, hk]
  · intro s msgKey msgProv msgCtx body
    simp [handleScanFlowM]
  · intro s msgKey msgProv msgCtx selCount body hk hs
    simp [handleScanFlowM, hs, hk]
  · intro s missing msgKey msgProv msgCtx body hk
    simp [handleGenerateMissingScreensM, hk]

/-- C6 witness: the amended theorem applied at concrete inputs (empty keys,
one selected screen for the key-missing case). -/
theorem C6_witness :
    jsTrim (jsOr [] (Session.apiKey ⟨[], [], AIProvider.openai⟩)) = [] ∧ (1 : Nat) ≠ 0
  ∧ handleScanScreensM ⟨[], [], AIProvider.openai⟩ [] AIProvider.openai none 1
      (fun _ => ([Effect.netRequest], none)) =
    (⟨[], [], AIProvider.openai⟩,
     [Effect.uiError (lit "Please set and validate your API key first.")])
  ∧ handleGenerateMissingScreensM ⟨[], [], AIProvider.openai⟩ [Json.null] []
      AIProvider.openai none (fun _ => ([Effect.netRequest], none)) =
    (⟨[], [], AIProvider.openai⟩, []) :=
  ⟨rfl, by decide,
   C6_precondition_failures.2.1 ⟨[], [], AIProvider.openai⟩ [] AIProvider.openai none 1
     (fun _ => ([Effect.netRequest], none)) rfl (by decide),
   C6_precondition_failures.2.2.2.2 ⟨[], [], AIProvider.openai⟩ [Json.null] []
     AIProvider.openai none (fun _ => ([Effect.netRequest], none)) rfl⟩

/-- C7: for every invocation of the documentation, flow-analysis or
regeneration handler, the ambient session triple (apiKey, projectContext,
currentProvider) after the handler equals the one before it, whatever the
message inputs, selection, and body outcome (success, or a throw caught by
the handler): the `finally` block restores the saved values. -/
theorem C7_session_restored_on_any_outcome :
    (∀ (s : Session) msgKey msgProv msgCtx selCount (body : HandlerBody),
       (handleScanScreensM s msgKey msgProv msgCtx selCount body).1 = s)
  ∧ (∀ (s : Session) msgKey msgProv msgCtx selCount (body : HandlerBody),
       (handleScanFlowM s msgKey msgProv msgCtx selCount body).1 = s)
  ∧ (∀ (s : Session) missing msgKey msgProv msgCtx (body : HandlerBody),
       (handleGenerateMissingScreensM s missing msgKey msgProv msgCtx body).1 = s) := by
  refine ⟨?_, ?_, ?_⟩
  · intro s msgKey msgProv msgCtx selCount body
    obtain ⟨a, b, c⟩ := s
    simp only [handleScanScreensM]
    split
    · rfl
    · split
      · rfl
      · rcases body _ with ⟨es, thrown⟩
        rfl
  · intro s msgKey msgProv msgCtx selCount body
    obtain ⟨a, b, c⟩ := s
    simp only [handleScanFlowM]
    split
    · rfl
    · split
      · rfl
      · rcases body _ with ⟨es, thrown⟩
        rfl
  · intro s missing msgKey msgProv msgCtx body
    obtain ⟨a, b, c⟩ := s
    simp only [handleGenerateMissingScreensM]
    split
    · rfl
    · rcases body _ with ⟨es, thrown⟩
      rfl

/-- C8: in the regeneration loop, each item whose first response fails to
parse is retried exactly once (two vendor requests, never a third); if the
retry also fails to parse, that item alone is skipped with an error
notification and no built screen, and the loop goes on with the remaining
items (the whole loop is the concatenation of independent per-item traces). -/
theorem C8_retry_once_then_skip :
    (∀ resps : List (Str × Str),
       genLoop resps = resps.flatMap (fun p => genItemTrace p.1 p.2))
  ∧ (∀ r1 r2 spec, parseVisualScreenSpec r1 = some spec →
       genItemTrace r1 r2 = [GenEvent.request, GenEvent.built spec])
  ∧ (∀ r1 r2 spec, parseVisualScreenSpec r1 = none →
       parseVisualScreenSpec r2 = some spec →
       genItemTrace r1 r2 = [GenEvent.request, GenEvent.request, GenEvent.built spec])
  ∧ (∀ r1 r2, parseVisualScreenSpec r1 = none → parseVisualScreenSpec r2 = none →
       genItemTrace r1 r2 = [GenEvent.request, GenEvent.request, GenEvent.skipError]) := by
  refine ⟨?_, ?_, ?_, ?_⟩
  · intro resps
    induction resps with
    | nil => rfl
    | cons p rest ih =>
      obtain ⟨r1, r2⟩ := p
      have hstep : genLoop ((r1, r2) :: rest) = genItemTrace r1 r2 ++ genLoop rest := by
        simp only [genLoop, genItemTrace]
        cases parseVisualScreenSpec r1 with
        | some spec => rfl
        | none =>
          cases parseVisualScreenSpec r2 with
          | some spec => rfl
          | none => rfl
      rw [hstep, ih, List.flatMap_cons]
  · intro r1 r2 spec h
    simp only [genItemTrace, h]
  · intro r1 r2 spec h1 h2
    simp only [genItemTrace, h1, h2]
  · intro r1 r2 h1 h2
    simp only [genItemTrace, h1, h2]

/-- C8 witness: concrete responses — a malformed first response and a
well-formed retry yield two requests then a build; two malformed responses
yield two requests then the skip notification. -/
theorem C8_witness :
    genItemTrace (lit "not json") (lit "\x7b\"name\":\"A\",\"width\":1,\"height\":2\x7d") =
      [GenEvent.request, GenEvent.request,
       GenEvent.built (Json.obj [(lit "name", Json.str (lit "A")),
                                 (lit "width", Json.num (lit "1")),
                                 (lit "height", Json.num (lit "2"))])]
  ∧ genItemTrace (lit "not json") (lit "still not json") =
      [GenEvent.request, GenEvent.request, GenEvent.skipError] :=
  ⟨C8_retry_once_then_skip.2.2.1 (lit "not json")
      (lit "\x7b\"name\":\"A\",\"width\":1,\"height\":2\x7d")
      (Json.obj [(lit "name", Json.str (lit "A")),
                 (lit "width", Json.num (lit "1")),
                 (lit "height", Json.num (lit "2"))]) rfl rfl,
   C8_retry_once_then_skip.2.2.2 (lit "not json") (lit "still not json") rfl rfl⟩

/-- A message that triggers none of the classifier's recognized patterns
(every probe of `getUserFriendlyError` comes back false), so that the
classifier falls through to the generic `Error:` message. -/
@[reducible] def unrecognizedMsg (m : Str) : Prop :=
  m ≠ [] ∧ m ≠ lit "[object Object]"
  ∧ containsSub m (lit "401") = false
  ∧ containsSub (jsLower m) (lit "invalid api key") = false
  ∧ containsSub (jsLower m) (lit "incorrect api key") = false
  ∧ containsSub m (lit "429") = false
  ∧ containsSub (jsLower m) (lit "rate limit") = false
  ∧ containsSub m (lit "402") = false
  ∧ containsSub (jsLower m) (lit "insufficient_quota") = false
  ∧ containsSub (jsLower m) (lit "credit") = false
  ∧ containsSub (jsLower m) (lit "quota") = false
  ∧ containsSub m (lit "400") = false
  ∧ containsSub m (lit "500") = false
  ∧ containsSub m (lit "502") = false
  ∧ containsSub m (lit "503") = false
  ∧ containsSub m (lit "529") = false
  ∧ containsSub (jsLower m) (lit "overloaded") = false
  ∧ containsSub m (lit "API error") = false
  ∧ containsSub (jsLower m) (lit "timeout") = false
  ∧ containsSub (jsLower m) (lit "timed out") = false
  ∧ containsSub m (lit "fetch") = false
  ∧ containsSub m (lit "Failed to fetch") = false
  ∧ containsSub (jsLower m) (lit "cors") = false
  ∧ containsSub (jsLower m) (lit "failed to fetch") = false
  ∧ containsSub (jsLower m) (lit "network") = false
  ∧ containsSub (jsLower m) (lit "no frames selected") = false
  ∧ containsSub (jsLower m) (lit "selection") = false
  ∧ containsSub m (lit "JSON") = false
  ∧ containsSub (jsLower m) (lit "parse") = false

/-- C5: the error classifier maps a message carrying `401` to the
invalid-API-key message; one carrying `429` (and no 401-group trigger) to
the rate-limit message; one carrying any of `500`, `502`, `503`, `529` (and
no earlier-group trigger) to the service-overloaded/try-later message; and
an unrecognized message is returned with the `Error: ` prefix when at most
300 characters long, truncated to 297 characters plus an ellipsis when
longer. -/
theorem C5_error_classification :
    (∀ (m : Str) (te : Bool) (prov : AIProvider),
       containsSub m (lit "401") = true →
       getUserFriendlyError (.err m te) (some prov) =
         providerLabel prov ++ lit ": Invalid API key. Please check your key and try again.")
  ∧ (∀ (m : Str) (te : Bool) (prov : AIProvider),
       containsSub m (lit "401") = false →
       containsSub (jsLower m) (lit "invalid api key") = false →
       containsSub (jsLower m) (lit "incorrect api key") = false →
       containsSub m (lit "429") = true →
       getUserFriendlyError (.err m te) (some prov) =
         lit "Rate limit reached. Please wait a moment and try again.")
  ∧ (∀ (m : Str) (te : Bool) (prov : AIProvider) (code : Str),
       code ∈ [lit "500", lit "502", lit "503", lit "529"] →
       containsSub m code = true →
       containsSub m (lit "401") = false →
       containsSub (jsLower m) (lit "invalid api key") = false →
       containsSub (jsLower m) (lit "incorrect api key") = false →
       containsSub m (lit "429") = false →
       containsSub (jsLower m) (lit "rate limit") = false →
       containsSub m (lit "402") = false →
       containsSub (jsLower m) (lit "insufficient_quota") = false →
       containsSub (jsLower m) (lit "credit") = false →
       containsSub (jsLower m) (lit "quota") = false →
       containsSub m (lit "400") = false →
       getUserFriendlyError (.err m te) (some prov) =
         providerLabel prov ++ lit " is experiencing issues. Please try again in a few minutes.")
  ∧ (∀ (m : Str) (te : Bool) (prov : AIProvider), unrecognizedMsg m →
       m.length ≤ 300 →
       getUserFriendlyError (.err m te) (some prov) = lit "Error: " ++ m)
  ∧ (∀ (m : Str) (te : Bool) (prov : AIProvider), unrecognizedMsg m →
       300 < m.length →
       getUserFriendlyError (.err m te) (some prov) =
         lit "Error: " ++ m.take 297 ++ lit "...") := by
  have hne : ∀ (m : Str) (pat : Str), pat ≠ [] → containsSub m pat = true → m ≠ [] := by
    intro m pat hp h hm
    subst hm
    simp [containsSub, findSubstrIdx, hp] at h
  refine ⟨?_, ?_, ?_, ?_, ?_⟩
  · intro m te prov h
    have hm : m ≠ [] := hne m _ (by decide) h
    have hobj : m ≠ lit "[object Object]" := by
      rintro rfl
      exact absurd h (by decide)
    simp [getUserFriendlyError, extractMessage, isTypeErr, classifyMessage, hm, hobj, h]
  · intro m te prov h401 hinv hinc h
    have hm : m ≠ [] := hne m _ (by decide) h
    have hobj : m ≠ lit "[object Object]" := by
      rintro rfl
      exact absurd h (by decide)
    simp [getUserFriendlyError, extractMessage, isTypeErr, classifyMessage, hm, hobj,
      h401, hinv, hinc, h]
  · intro m te prov code hcode h h401 hinv hinc h429 hrate h402 hquo hcred hquota h400
    simp only [List.mem_cons, List.not_mem_nil, or_false] at hcode
    obtain rfl | rfl | rfl | rfl := hcode <;>
    · have hm : m ≠ [] := hne m _ (by decide) h
      have hobj : m ≠ lit "[object Object]" := by
        rintro rfl
        exact absurd h (by decide)
      simp [getUserFriendlyError, extractMessage, isTypeErr, classifyMessage, hm, hobj,
        h401, hinv, hinc, h429, hrate, h402, hquo, hcred, hquota, h400, h]
  · intro m te prov hu hlen
    obtain ⟨hm, hobj, h401, hinv, hinc, h429, hrate, h402, hquo, hcred, hquota, h400,
      h500, h502, h503, h529, hover, hapi, htime, htimed, hfetch, hftf, hcors, hfail,
      hnet, hnofr, hsel, hjson, hparse⟩ := hu
    have hlen' : ¬(m.length > 300) := by omega
    simp [getUserFriendlyError, extractMessage, isTypeErr, classifyMessage,
      classifyApiCode, classifyTail, hm, hobj, h401, hinv, hinc, h429, hrate, h402,
      hquo, hcred, hquota, h400, h500, h502, h503, h529, hover, hapi, htime, htimed,
      hfetch, hftf, hcors, hfail, hnet, hnofr, hsel, hjson, hparse, hlen']
  · intro m te prov hu hlen
    obtain ⟨hm, hobj, h401, hinv, hinc, h429, hrate, h402, hquo, hcred, hquota, h400,
      h500, h502, h503, h529, hover, hapi, htime, htimed, hfetch, hftf, hcors, hfail,
      hnet, hnofr, hsel, hjson, hparse⟩ := hu
    simp [getUserFriendlyError, extractMessage, isTypeErr, classifyMessage,
      classifyApiCode, classifyTail, hm, hobj, h401, hinv, hinc, h429, hrate, h402,
      hquo, hcred, hquota, h400, h500, h502, h503, h529, hover, hapi, htime, htimed,
      hfetch, hftf, hcors, hfail, hnet, hnofr, hsel, hjson, hparse, hlen]

set_option maxRecDepth 100000 in
/-- C5 witness: the classification theorem applied at concrete errors for a
401, a 429, a 502, a short unrecognized message, and a 301-character
unrecognized message. -/
theorem C5_witness :
    getUserFriendlyError (.err (lit "API error 401: Unauthorized") false)
        (some AIProvider.anthropic) =
      lit "Anthropic: Invalid API key. Please check your key and try again."
  ∧ getUserFriendlyError (.err (lit "API error 429: slow down") false)
        (some AIProvider.openai) =
      lit "Rate limit reached. Please wait a moment and try again."
  ∧ getUserFriendlyError (.err (lit "API error 502: bad gateway") false)
        (some AIProvider.google) =
      lit "Google is experiencing issues. Please try again in a few minutes."
  ∧ getUserFriendlyError (.err (lit "weird thing happened") false)
        (some AIProvider.anthropic) =
      lit "Error: " ++ lit "weird thing happened"
  ∧ getUserFriendlyError (.err (List.replicate 301 'z') false)
        (some AIProvider.anthropic) =
      lit "Error: " ++ (List.replicate 301 'z').take 297 ++ lit "..." :=
  ⟨(C5_error_classification.1 (lit "API error 401: Unauthorized") false
      AIProvider.anthropic (by decide)).trans rfl,
   C5_error_classification.2.1 (lit "API error 429: slow down") false
      AIProvider.openai (by decide) (by decide) (by decide) (by decide),
   (C5_error_classification.2.2.1 (lit "API error 502: bad gateway") false
      AIProvider.google (lit "502") (by decide) (by decide) (by decide) (by decide)
      (by decide) (by decide) (by decide) (by decide) (by decide) (by decide)
      (by decide) (by decide)).trans rfl,
   C5_error_classification.2.2.2.1 (lit "weird thing happened") false
      AIProvider.anthropic (by decide) (by decide),
   C5_error_classification.2.2.2.2 (List.replicate 301 'z') false
      AIProvider.anthropic (by decide) (by decide)⟩

-- ---------------------------------------------------------------------------
-- Helper lemmas for the parseDocSections claims
-- ---------------------------------------------------------------------------

theorem findHeader_mem {t k : Str} (h : findHeader t = some k) : k ∈ docSectionKeys := by
  simp only [findHeader] at h
  split_ifs at h <;> simp only [Option.some.injEq] at h
  all_goals (subst h; decide)

theorem setKey_map_fst (k v : Str) :
    ∀ m : List (Str × Str), k ∈ m.map Prod.fst →
      (setKey k v m).map Prod.fst = m.map Prod.fst := by
  intro m
  induction m with
  | nil => intro h; simp at h
  | cons p rest ih =>
    intro h
    obtain ⟨k', v'⟩ := p
    by_cases hk : k' = k
    · simp [setKey, hk]
    · simp only [setKey, if_neg hk, List.map_cons]
      have hmem : k ∈ rest.map Prod.fst := by
        simp only [List.map_cons, List.mem_cons] at h
        rcases h with h | h
        · exact absurd h.symm hk
        · exact h
      rw [ih hmem]

theorem getKey_setKey_ne {k' k : Str} (hne : k' ≠ k) (v : Str) :
    ∀ m : List (Str × Str), getKey (setKey k' v m) k = getKey m k := by
  intro m
  induction m with
  | nil => simp [setKey, getKey, List.find?, hne]
  | cons p rest ih =>
    obtain ⟨k0, v0⟩ := p
    by_cases h0 : k0 = k'
    · subst h0
      simp [setKey, getKey, List.find?, hne]
    · by_cases h1 : k0 = k
      · subst h1
        simp [setKey, if_neg h0, getKey, List.find?]
      · simp only [setKey, if_neg h0]
        simp only [getKey, List.find?, h1] at ih ⊢
        exact ih

theorem getKey_map_val (f : Str → Str) (k : Str) :
    ∀ m : List (Str × Str),
      getKey (m.map (fun p => (p.1, f p.2))) k = (getKey m k).map f := by
  intro m
  induction m with
  | nil => rfl
  | cons p rest ih =>
    obtain ⟨k0, v0⟩ := p
    by_cases h0 : k0 = k
    · subst h0
      simp [getKey, List.find?]
    · simp only [List.map_cons]
      simp only [getKey, List.find?, h0] at ih ⊢
      exact ih

theorem getKey_ne_none_of_mem {k : Str} :
    ∀ m : List (Str × Str), k ∈ m.map Prod.fst → getKey m k ≠ none := by
  intro m
  induction m with
  | nil => intro h; simp at h
  | cons p rest ih =>
    intro h
    obtain ⟨k0, v0⟩ := p
    by_cases h0 : k0 = k
    · subst h0; simp [getKey, List.find?]
    · simp only [List.map_cons, List.mem_cons] at h
      rcases h with h | h
      · exact absurd h.symm h0
      · simp only [getKey, List.find?, h0]
        exact ih h

/-- Invariant for the key-set claims: the record always carries exactly the
eight fixed keys, and the scan position is always one of them. -/
def keysInv (st : DocParseState) : Prop :=
  st.sections.map Prod.fst = docSectionKeys ∧
  ∀ k, st.currentKey = some k → k ∈ docSectionKeys

theorem flushState_keys {st : DocParseState} (h : keysInv st) :
    (flushState st).map Prod.fst = docSectionKeys := by
  obtain ⟨sections, ck, lines⟩ := st
  obtain ⟨h1, h2⟩ := h
  cases ck with
  | none => exact h1
  | some k =>
    simp only [flushState]
    split
    · exact h1
    · rw [setKey_map_fst _ _ _ (h1 ▸ h2 k rfl)]
      exact h1

theorem docLineStep_keys {st : DocParseState} (h : keysInv st) (line : Str) :
    keysInv (docLineStep st line) := by
  obtain ⟨h1, h2⟩ := h
  simp only [docLineStep]
  cases hf : findHeader (jsTrim line) with
  | none =>
    cases hc : st.currentKey with
    | none => exact ⟨h1, h2⟩
    | some k0 =>
      rw [hc] at h2
      exact ⟨h1, h2⟩
  | some k =>
    refine ⟨flushState_keys ⟨h1, h2⟩, ?_⟩
    intro k' hk'
    simp only [Option.some.injEq] at hk'
    subst hk'
    exact findHeader_mem hf

theorem foldl_keys (lines : List Str) :
    ∀ st, keysInv st → keysInv (lines.foldl docLineStep st) := by
  induction lines with
  | nil => intro st h; exact h
  | cons l rest ih => intro st h; exact ih _ (docLineStep_keys h l)

/-- The parsed record carries exactly the eight fixed section keys, in
order, for every input. -/
theorem parseDocSections_keys (doc : Str) :
    (parseDocSections doc).map Prod.fst = docSectionKeys := by
  have h0 : keysInv ⟨docDefaults, none, []⟩ := ⟨rfl, fun k h => by cases h⟩
  have h1 := foldl_keys ((normNl doc).splitOn '\n') _ h0
  have h2 : (parseDocSectionsPre doc).map Prod.fst = docSectionKeys := flushState_keys h1
  simp only [parseDocSections, List.map_map]
  simpa using h2

/-- Invariant for the default-preservation claim: key `k` still holds its
default and is not the current scan target. -/
def defaultInv (k : Str) (st : DocParseState) : Prop :=
  getKey st.sections k = getKey docDefaults k ∧ st.currentKey ≠ some k

theorem flushState_default {k : Str} {st : DocParseState} (h : defaultInv k st) :
    getKey (flushState st) k = getKey docDefaults k := by
  obtain ⟨sections, ck, lines⟩ := st
  obtain ⟨h1, h2⟩ := h
  cases ck with
  | none => exact h1
  | some k' =>
    have hne : k' ≠ k := by
      intro he
      exact h2 (by rw [he])
    simp only [flushState]
    split
    · exact h1
    · rw [getKey_setKey_ne hne]
      exact h1

theorem docLineStep_default {k : Str} (line : Str)
    (hline : findHeader (jsTrim line) ≠ some k) {st : DocParseState}
    (h : defaultInv k st) : defaultInv k (docLineStep st line) := by
  simp only [docLineStep]
  cases hf : findHeader (jsTrim line) with
  | none =>
    obtain ⟨h1, h2⟩ := h
    cases hc : st.currentKey with
    | none => exact ⟨h1, h2⟩
    | some k0 =>
      rw [hc] at h2
      exact ⟨h1, h2⟩
  | some k' =>
    refine ⟨flushState_default h, ?_⟩
    intro he
    simp only [Option.some.injEq] at he
    subst he
    exact hline hf

theorem foldl_default {k : Str} (lines : List Str)
    (h : ∀ line ∈ lines, findHeader (jsTrim line) ≠ some k) :
    ∀ st, defaultInv k st → defaultInv k (lines.foldl docLineStep st) := by
  induction lines with
  | nil => intro st hst; exact hst
  | cons l rest ih =>
    intro st hst
    exact ih (fun line hm => h line (List.mem_cons_of_mem l hm)) _
      (docLineStep_default l (h l (List.mem_cons_self l rest)) hst)

set_option maxRecDepth 100000 in
/-- C4: for every input document the section parser returns a record with
every expected section key present (exactly the eight registered keys, so
no key is ever undefined/absent); a section whose header matches no line of
the input keeps its pre-registered default — the fill-in-the-blank
placeholder for `Link to Component Library` and `Attachments`, the empty
string for the others; and residual markdown heading markers are stripped
from a section's final content (final conjunct: a concrete response whose
body starts with a `###` heading comes back with the marker removed). -/
theorem C4_section_parser_defaults :
    (∀ doc : Str, (parseDocSections doc).map Prod.fst = docSectionKeys)
  ∧ (∀ (doc : Str) (k : Str), k ∈ docSectionKeys →
       getKey (parseDocSections doc) k ≠ none)
  ∧ (∀ (doc : Str) (k : Str), k ∈ docSectionKeys →
       (∀ line ∈ (normNl doc).splitOn '\n', findHeader (jsTrim line) ≠ some k) →
       getKey (parseDocSections doc) k = getKey docDefaults k)
  ∧ (getKey docDefaults kLink = some (lit "_____________________ (add link here)")
     ∧ getKey docDefaults kAttachments =
         some (lit "Design specs: _____________________ (add link)\n\nAssets: _____________________ (add link)\n\nOther: _____________________ (add link)")
     ∧ ∀ k ∈ [kPurpose, kUseCases, kEdgeCases, kPlatform, kDataLogic, kAnimations],
         getKey docDefaults k = some [])
  ∧ getKey (parseDocSections (lit "## Purpose\n### Sub\ntext")) kPurpose =
      some (lit "Sub\ntext") := by
  refine ⟨?_, ?_, ?_, ⟨by decide, by decide, by decide⟩, by decide⟩
  · exact parseDocSections_keys
  · intro doc k hk
    exact getKey_ne_none_of_mem _ ((parseDocSections_keys doc).symm ▸ hk)
  · intro doc k hk h
    have h0 : defaultInv k ⟨docDefaults, none, []⟩ := ⟨rfl, by simp⟩
    have h1 := foldl_default ((normNl doc).splitOn '\n') h _ h0
    have h2 : getKey (parseDocSectionsPre doc) k = getKey docDefaults k :=
      flushState_default h1
    rw [parseDocSections, getKey_map_val, h2]
    fin_cases hk <;> decide

set_option maxRecDepth 100000 in
/-- C4 witness: the parser applied to a document containing no recognized
header at all — every key is present and every key holds its default. -/
theorem C4_witness :
    (∀ line ∈ (normNl (lit "nothing recognizable here")).splitOn '\n',
       findHeader (jsTrim line) ≠ some kLink)
  ∧ kLink ∈ docSectionKeys
  ∧ getKey (parseDocSections (lit "nothing recognizable here")) kLink =
      some (lit "_____________________ (add link here)") :=
  ⟨by decide, by decide,
   (C4_section_parser_defaults.2.2.1 (lit "nothing recognizable here") kLink
      (by decide) (by decide)).trans (by decide)⟩

set_option maxRecDepth 100000 in
/-- C10: for every input the section parser's record has exactly the eight
fixed keys and no others; and a recognized header whose collected body is
whitespace-only leaves the key's pre-registered default in place (the
`flush` stores nothing when the cleaned content is empty), shown also on a
concrete input where a recognized `Link to Component Library` header with a
blank body retains the non-empty placeholder default. -/
theorem C10_fixed_keys_blank_body_keeps_default :
    (∀ doc : Str, (parseDocSections doc).map Prod.fst = docSectionKeys)
  ∧ (∀ (sections : List (Str × Str)) (k : Str) (bodyLines : List Str),
       (List.intercalate ['\n'] bodyLines).all isJsWs = true →
       flushState ⟨sections, some k, bodyLines⟩ = sections)
  ∧ getKey (parseDocSections (lit "## Link to Component Library\n   \n## Purpose\nX"))
        kLink = some (lit "_____________________ (add link here)") := by
  refine ⟨parseDocSections_keys, ?_, by decide⟩
  intro sections k bodyLines hws
  have h1 : jsTrim (List.intercalate ['\n'] bodyLines) = [] := by
    unfold jsTrim
    rw [List.dropWhile_eq_nil_iff.mpr (fun x hx => List.all_eq_true.mp hws x hx)]
    rfl
  have h2 : flushContent bodyLines = [] := by
    rw [flushContent, h1]
    rfl
  simp [flushState, h2]

/-- C10 witness: a whitespace-only body flushed under the `Purpose` key
leaves the record untouched. -/
theorem C10_witness :
    (List.intercalate ['\n'] [lit "   ", lit " "]).all isJsWs = true
  ∧ flushState ⟨docDefaults, some kPurpose, [lit "   ", lit " "]⟩ = docDefaults :=
  ⟨by decide,
   C10_fixed_keys_blank_body_keeps_default.2.1 docDefaults kPurpose
     [lit "   ", lit " "] (by decide)⟩
